import Mathlib

/-!
# Verification of the gaze_capture streaming pipeline

Shallow embedding of the core pipeline components of the `gaze_capture`
repository, together with theorems settling the specification claims.

Embedded components (each definition's doc comment names the Python source
it translates):

* `Distributor.run` (`pipeline/distributor.py`) — fan-out of a single input
  queue to a list of output queues;
* `Bundler.run` / `Bundler._collect_bundle` (`pipeline/bundler.py`) — timed
  size/interval batching, modelled with deterministic discrete-event
  semantics over rational time;
* `ParquetSink.__init__` / `ParquetSink._worker` (`sinks/parquet.py`) —
  construction and the greedy batched drain of the columnar sink;
* `HTTPSink._send_with_retry` / `_managed_send_task` / `run`
  (`sinks/http.py`) — retry with exponential backoff and the
  semaphore-bounded concurrent send loop;
* `ZMQSink.send` (`sinks/zmq.py`) — the `struct.Struct("!qii?")` wire
  encoding of one gaze sample.
-/

namespace GazeCapture

/-- An item travelling through a pipeline queue: either a data sample or the
`EndToken` sentinel (`utils/types.py`, class `EndToken`): a unique value,
distinguishable from any sample, signaling end of stream. -/
inductive StreamItem (α : Type) where
  | sample (s : α)
  | endToken
  deriving DecidableEq, Repr

/-! ## Distributor (`pipeline/distributor.py`)

`Distributor.run` loops: `item = await self._input_queue.get()` then
`for q in self._output_queues: await q.put(item)`, all inside
`try ... except Exception: logger.exception(...)`, so an exception raised
while putting the item into one output queue aborts the `for` loop (the
remaining queues do not receive that item) and the `while` loop continues
with the next item.  Queues are modelled as the lists of items they have
received; `fails j = true` models `q.put` raising for output index `j`. -/

/-- One fan-out of a single `item` across the output queues, in list order,
starting at queue index `j`.  Mirrors the `for q in self._output_queues`
loop of `Distributor.run`: a failing `put` (modelled by `fails`) raises,
which aborts the loop, leaving the failing queue and all later queues
without the item. -/
def deliverLoop {ι : Type} (fails : Nat → Bool) (item : ι) :
    Nat → List (List ι) → List (List ι)
  | _, [] => []
  | j, q :: qs =>
    if fails j then q :: qs
    else (q ++ [item]) :: deliverLoop fails item (j + 1) qs

/-- The `while True` loop of `Distributor.run` over a finite input stream:
item `i` of `input` is fanned out with failure oracle `fails i`.  The
`except Exception` clause sits inside the `while` loop, so after a failed
delivery the loop continues with the next item. -/
def distributorGo {ι : Type} (fails : Nat → Nat → Bool) :
    List ι → Nat → List (List ι) → List (List ι)
  | [], _, qs => qs
  | item :: rest, i, qs => distributorGo fails rest (i + 1) (deliverLoop (fails i) item 0 qs)

/-- The run of `Distributor.run` with `K` initially-empty output queues fed the finite
stream `input`; returns the contents each output queue has received. -/
def distributorOutputs {ι : Type} (fails : Nat → Nat → Bool) (input : List ι) (K : Nat) :
    List (List ι) :=
  distributorGo fails input 0 (List.replicate K [])

theorem deliverLoop_noFail {ι : Type} (item : ι) (j : Nat) (qs : List (List ι)) :
    deliverLoop (fun _ => false) item j qs = qs.map (· ++ [item]) := by
  induction qs generalizing j with
  | nil => rfl
  | cons q qs ih => simp [deliverLoop, ih]

theorem distributorGo_noFail {ι : Type} (input : List ι) (i : Nat) (qs : List (List ι)) :
    distributorGo (fun _ _ => false) input i qs = qs.map (· ++ input) := by
  induction input generalizing i qs with
  | nil => simp [distributorGo]
  | cons item rest ih =>
    rw [distributorGo, ih, deliverLoop_noFail]
    simp [List.map_map, Function.comp]

/-- C7 (counterexample): with two output queues and a `put` that raises for
item 0 at queue 0, `Distributor.run` delivers the item to no queue at all:
the `for` loop aborts at the failing queue, so queue 1 — a queue *after*
the failing position — never receives the item, contradicting the claim
that the remaining queues still receive it. -/
theorem distributor_failure_skips_remaining_queues_cex :
    distributorOutputs (fun i j => i == 0 && j == 0) [(7 : Nat)] 2 = [[], []] := by
  decide

/-- C7 (amended): an exception while delivering an item to the output queue
at position `j` is logged and aborts the fan-out of that item: the failing
queue and every queue after it are left unchanged for that item
(`deliverLoop` returns the queues as they were).  The `except` clause sits
inside the `while` loop, so the distributor then continues with the next
item of the stream. -/
theorem distributor_failure_aborts_item_fanout
    {ι : Type} (fails : Nat → Nat → Bool) (item : ι) (i j : Nat)
    (qs : List (List ι)) (rest : List ι) (h : fails i j = true) :
    deliverLoop (fails i) item j qs = qs ∧
      distributorGo fails (item :: rest) i qs
        = distributorGo fails rest (i + 1) (deliverLoop (fails i) item 0 qs) := by
  refine ⟨?_, rfl⟩
  cases qs with
  | nil => rfl
  | cons q qs => simp [deliverLoop, h]

/-- C7 (witness for `distributor_failure_aborts_item_fanout`). -/
theorem distributor_failure_aborts_item_fanout_witness :
    deliverLoop ((fun i j => i == 1 && j == 1) 1) (5 : Nat) 1 [[9], [9]] = [[9], [9]] ∧
      distributorGo (fun i j => i == 1 && j == 1) [(5 : Nat)] 1 [[9], [9]]
        = distributorGo (fun i j => i == 1 && j == 1) [] 2
            (deliverLoop ((fun i j => i == 1 && j == 1) 1) (5 : Nat) 0 [[9], [9]]) :=
  distributor_failure_aborts_item_fanout (fun i j => i == 1 && j == 1) 5 1 1 [[9], [9]] []
    (by decide)

/-- C1: when no delivery raises, `Distributor.run` forwards every item of
the input stream — the `N` samples followed by the single `EndToken`,
which is not special-cased — to each of the `K` output queues, so every
output queue ends up holding exactly the same sequence: all `N` samples in
the original order followed by exactly one `EndToken`. -/
theorem distributor_delivers_all_in_order_with_endToken
    {α : Type} (samples : List α) (K : Nat) :
    distributorOutputs (fun _ _ => false)
        (samples.map StreamItem.sample ++ [StreamItem.endToken]) K
      = List.replicate K (samples.map StreamItem.sample ++ [StreamItem.endToken]) := by
  rw [distributorOutputs, distributorGo_noFail]
  simp [List.map_replicate]

/-! ## Bundler (`pipeline/bundler.py`)

Deterministic discrete-event semantics over rational time.  The input
stream is a list of `(arrivalTime, item)` pairs in arrival order; the
bundler's own processing is instantaneous.  `Bundler._collect_bundle` sets
`deadline = self._loop.time() + self._max_interval_s` *when collection
starts* (before any sample is received), then repeatedly awaits
`asyncio.wait_for(self._input_queue.get(), timeout=deadline - now)`:

* an item whose arrival time is within the deadline is received (at its
  arrival time, or immediately if it was already queued);
* otherwise the wait times out at the deadline and the collection loop
  breaks.

`Bundler._add_sample_to_bundle` reads `gaze_data.device_time_stamp` on the
received object; the `EndToken` sentinel has no such attribute, so adding
it raises `AttributeError`, which propagates out of `_collect_bundle`
(only `asyncio.TimeoutError` is caught there) into the `except Exception`
clause of `Bundler.run` — modelled by `Except.error` carrying the
accumulated (and then discarded) bundle. -/

/-- Bundler configuration: `bundle_size` and `max_interval_s`
(`Bundler.__init__`, validated to be positive). -/
structure BundlerConfig where
  bundleSize : Nat
  maxIntervalS : ℚ
  deriving DecidableEq, Repr

/-- The `while len(bundle.samples) < self._bundle_size` loop of
`Bundler._collect_bundle`, over the pending input `inp` with accumulated
`bundle`, current time `now` and the already-fixed `deadline`.  Returns
`.ok (bundle, timeNow, remainingInput)` on a size-limit or timeout exit,
and `.error bundle` when an `EndToken` is received (the `AttributeError`
path: the accumulated bundle is lost). -/
def collectLoop {α : Type} (cfg : BundlerConfig) :
    List (ℚ × StreamItem α) → List α → ℚ → ℚ →
      Except (List α) (List α × ℚ × List (ℚ × StreamItem α))
  | [], bundle, now, deadline =>
    if cfg.bundleSize ≤ bundle.length then .ok (bundle, now, [])
    else if deadline - now ≤ 0 then .ok (bundle, now, [])
    else .ok (bundle, deadline, [])
  | (a, item) :: rest, bundle, now, deadline =>
    if cfg.bundleSize ≤ bundle.length then .ok (bundle, now, (a, item) :: rest)
    else if deadline - now ≤ 0 then .ok (bundle, now, (a, item) :: rest)
    else if a ≤ deadline then
      match item with
      | .sample s => collectLoop cfg rest (bundle ++ [s]) (max now a) deadline
      | .endToken => .error bundle
    else .ok (bundle, deadline, (a, item) :: rest)

/-- Model of `Bundler._collect_bundle`: fixes `deadline = now + max_interval_s` at
the start of collection (line `deadline = self._loop.time() +
self._max_interval_s`, executed before the first `get`), then runs the
collection loop starting from an empty bundle. -/
def collectBundle {α : Type} (cfg : BundlerConfig) (now : ℚ)
    (inp : List (ℚ × StreamItem α)) :
    Except (List α) (List α × ℚ × List (ℚ × StreamItem α)) :=
  collectLoop cfg inp [] now (now + cfg.maxIntervalS)

/-- The `while True` loop of `Bundler.run`, with `fuel` bounding the number
of iterations observed: each iteration collects one bundle and emits it to
the output queue only if non-empty (`if bundle.samples:`).  Returns the
list of `(emissionTime, bundle)` pairs put on the output queue.  On an
exception from `_collect_bundle` the loop exits after logging — nothing is
emitted for that bundle and nothing further is ever put on the output
queue (`Bundler.run` contains no statement forwarding a termination
signal). -/
def bundlerRun {α : Type} (cfg : BundlerConfig) :
    Nat → ℚ → List (ℚ × StreamItem α) → List (ℚ × List α)
  | 0, _, _ => []
  | fuel + 1, now, inp =>
    match collectBundle cfg now inp with
    | .error _ => []
    | .ok (bundle, now2, inp2) =>
      if bundle.isEmpty then bundlerRun cfg fuel now2 inp2
      else (now2, bundle) :: bundlerRun cfg fuel now2 inp2

/-- C2 (evaluation of the code at the failing input): with `bundleSize = 3`,
`maxIntervalSeconds = 1.0` and samples arriving at `t = 0, 0.1, 0.2, 1.5`,
the first bundle `{s0,s1,s2}` is emitted at `t = 0.2` as claimed, but the
second bundle `{s3}` is emitted at `t = 2.2`, not `≈ 2.5`:
`_collect_bundle` fixes `deadline = now + max_interval_s` when collection
*starts* (here `t = 1.2`, after the empty window `[0.2, 1.2]` timed out),
not upon receiving the first sample of the bundle (`t = 1.5`). -/
theorem bundler_second_bundle_emitted_at_2_2 :
    bundlerRun ⟨3, 1⟩ 5 0
        [(0, .sample (0 : Nat)), (1/10, .sample 1), (2/10, .sample 2), (3/2, .sample 3)]
      = [(1/5, [0, 1, 2]), (11/5, [3])] := by
  norm_num [bundlerRun, collectBundle, collectLoop]

/-- C3 (counterexample): one sample followed by the `EndToken`, both already
queued, with `bundleSize = 3` and `maxIntervalSeconds = 1`: the bundler has
accumulated a partial bundle `[s0]` when it receives the `EndToken`, and it
emits *nothing at all* — the accumulated bundle is not flushed and no
termination signal is put on the output queue; `_add_sample_to_bundle`
raises on the sentinel and `run` exits via its `except Exception` clause. -/
theorem bundler_endToken_emits_nothing_cex :
    bundlerRun ⟨3, 1⟩ 3 0 [(0, .sample (0 : Nat)), (0, .endToken)] = [] := by
  norm_num [bundlerRun, collectBundle, collectLoop]

theorem collectLoop_endToken_error {α : Type} (cfg : BundlerConfig)
    (samples : List α) (bundle : List α) (deadline : ℚ)
    (hlen : bundle.length + samples.length < cfg.bundleSize) (hd : 0 < deadline) :
    collectLoop cfg
        (samples.map (fun s => ((0 : ℚ), StreamItem.sample s)) ++ [(0, StreamItem.endToken)])
        bundle 0 deadline
      = .error (bundle ++ samples) := by
  induction samples generalizing bundle with
  | nil =>
    rw [List.map_nil, List.nil_append, collectLoop]
    rw [if_neg (by omega), if_neg (by linarith), if_pos (le_of_lt hd)]
    simp
  | cons s rest ih =>
    rw [List.map_cons, List.cons_append, collectLoop]
    rw [if_neg (by simp at hlen; omega), if_neg (by linarith), if_pos (le_of_lt hd)]
    have := ih (bundle ++ [s]) (by simp at hlen ⊢; omega)
    rw [max_self, this]
    simp

/-- C3 (amended): when the `EndToken` reaches the Bundler while a bundle is
partially accumulated (fewer samples than `bundleSize` arrived, all within
the collection window), `Bundler.run` does *not* flush the accumulated
bundle and does *not* propagate any termination signal: adding the
sentinel raises `AttributeError`, the exception is logged, and the loop
exits having emitted nothing. -/
theorem bundler_endToken_discards_partial_bundle
    {α : Type} (cfg : BundlerConfig) (fuel : Nat) (samples : List α)
    (hlen : samples.length < cfg.bundleSize) (hpos : 0 < cfg.maxIntervalS) :
    bundlerRun cfg fuel 0
        (samples.map (fun s => ((0 : ℚ), StreamItem.sample s)) ++ [(0, StreamItem.endToken)])
      = [] := by
  cases fuel with
  | zero => rfl
  | succ fuel =>
    rw [bundlerRun, collectBundle,
      collectLoop_endToken_error cfg samples [] (0 + cfg.maxIntervalS)
        (by simpa using hlen) (by simpa using hpos)]

/-- C3 (witness for `bundler_endToken_discards_partial_bundle`). -/
theorem bundler_endToken_discards_partial_bundle_witness :
    bundlerRun ⟨3, 1⟩ 4 0
        (([5, 6] : List Nat).map (fun s => ((0 : ℚ), StreamItem.sample s))
          ++ [(0, StreamItem.endToken)])
      = [] :=
  bundler_endToken_discards_partial_bundle ⟨3, 1⟩ 4 [5, 6] (by decide) (by norm_num)

theorem collectLoop_ok_length {α : Type} (cfg : BundlerConfig)
    (inp : List (ℚ × StreamItem α)) (bundle b : List α) (now deadline t : ℚ)
    (rest : List (ℚ × StreamItem α))
    (hb : bundle.length ≤ cfg.bundleSize)
    (h : collectLoop cfg inp bundle now deadline = .ok (b, t, rest)) :
    b.length ≤ cfg.bundleSize := by
  induction inp generalizing bundle now with
  | nil =>
    rw [collectLoop] at h
    split at h
    · simp_all
    · split at h <;> simp_all
  | cons hd tl ih =>
    obtain ⟨a, item⟩ := hd
    cases item with
    | sample s =>
      rw [collectLoop] at h
      by_cases h1 : cfg.bundleSize ≤ bundle.length
      · rw [if_pos h1] at h
        simp only [Except.ok.injEq, Prod.mk.injEq] at h
        exact h.1 ▸ hb
      · rw [if_neg h1] at h
        by_cases h2 : deadline - now ≤ 0
        · rw [if_pos h2] at h
          simp only [Except.ok.injEq, Prod.mk.injEq] at h
          exact h.1 ▸ hb
        · rw [if_neg h2] at h
          by_cases h3 : a ≤ deadline
          · rw [if_pos h3] at h
            exact ih (bundle ++ [s]) (max now a) (by simp; omega) h
          · rw [if_neg h3] at h
            simp only [Except.ok.injEq, Prod.mk.injEq] at h
            exact h.1 ▸ hb
    | endToken =>
      rw [collectLoop] at h
      by_cases h1 : cfg.bundleSize ≤ bundle.length
      · rw [if_pos h1] at h
        simp only [Except.ok.injEq, Prod.mk.injEq] at h
        exact h.1 ▸ hb
      · rw [if_neg h1] at h
        by_cases h2 : deadline - now ≤ 0
        · rw [if_pos h2] at h
          simp only [Except.ok.injEq, Prod.mk.injEq] at h
          exact h.1 ▸ hb
        · rw [if_neg h2] at h
          by_cases h3 : a ≤ deadline
          · rw [if_pos h3] at h
            exact Except.noConfusion h
          · rw [if_neg h3] at h
            simp only [Except.ok.injEq, Prod.mk.injEq] at h
            exact h.1 ▸ hb

/-- C9: every bundle the Bundler ever emits to its output queue is
non-empty and holds at most `bundleSize` samples — for every
configuration, fuel, start time and input stream (including streams whose
time windows elapse with no samples, which restart the wait instead of
emitting). -/
theorem bundler_emits_only_nonempty_bounded_bundles
    {α : Type} (cfg : BundlerConfig) (fuel : Nat) (t0 : ℚ)
    (inp : List (ℚ × StreamItem α)) (t : ℚ) (b : List α)
    (hmem : (t, b) ∈ bundlerRun cfg fuel t0 inp) :
    b ≠ [] ∧ b.length ≤ cfg.bundleSize := by
  induction fuel generalizing t0 inp with
  | zero => cases hmem
  | succ fuel ih =>
    rw [bundlerRun] at hmem
    split at hmem
    · cases hmem
    · rename_i bundle now2 inp2 heq
      unfold collectBundle at heq
      by_cases hne : bundle.isEmpty
      · rw [if_pos hne] at hmem
        exact ih now2 inp2 hmem
      · rw [if_neg hne] at hmem
        rcases List.mem_cons.mp hmem with heq2 | hmem2
        · simp only [Prod.mk.injEq] at heq2
          obtain ⟨rfl, rfl⟩ := heq2
          refine ⟨by simpa [List.isEmpty_iff] using hne, ?_⟩
          exact collectLoop_ok_length cfg inp [] b t0 (t0 + cfg.maxIntervalS) t inp2
            (by simp) heq
        · exact ih now2 inp2 hmem2

/-- C9 (witness for `bundler_emits_only_nonempty_bounded_bundles`). -/
theorem bundler_emits_only_nonempty_bounded_bundles_witness :
    ([0, 1] : List Nat) ≠ [] ∧ ([0, 1] : List Nat).length ≤ (2 : Nat) :=
  bundler_emits_only_nonempty_bounded_bundles ⟨2, 1⟩ 2 0
    [(0, .sample 0), (0, .sample 1)] 0 [0, 1]
    (by norm_num [bundlerRun, collectBundle, collectLoop])

/-! ## ParquetSink (`sinks/parquet.py`)

`ParquetSink.__init__` stores `max_buffer_size`, `drop_when_full`, creates
`asyncio.Queue(maxsize=queue_size)` and zeroes the statistics counters.
It contains no comparison between `queue_size` and `max_buffer_size` and
no `raise` statement: every configuration is accepted as given.

`ParquetSink._worker` is the greedy batched drain: block for one anchor
item; if it is `_END` break (final flush of the buffer); otherwise append
it, then non-blockingly drain further items while the queue is non-empty
and the buffer holds fewer than `max_buffer_size` items (an `_END` met
during the drain flushes the buffer and returns immediately); finally, if
the buffer reached `max_buffer_size`, flush and clear it.  `_flush`
skips empty batches.  The queue is modelled as the list of items it holds,
all enqueued before the worker runs (the hypothesis of claim C5); an empty
queue means `await queue.get()` suspends with no further observable
flushes. -/

/-- The configuration and statistics state stored by `ParquetSink.__init__`
(the file path and writer handle are I/O state, not modelled). -/
structure ParquetSinkState where
  maxBufferSize : Nat
  dropWhenFull : Bool
  queueCapacity : Nat
  totalRows : Nat
  totalPredsDropped : Nat
  deriving DecidableEq, Repr

/-- Model of `ParquetSink.__init__`: stores the arguments unchanged and never
raises a configuration error — there is no validation of `queue_size`
against `max_buffer_size` (the `Except` result type records that the
constructor has no error path). -/
def parquetInit (dropWhenFull : Bool) (maxBufferSize queueSize : Nat) :
    Except String ParquetSinkState :=
  .ok { maxBufferSize := maxBufferSize
        dropWhenFull := dropWhenFull
        queueCapacity := queueSize
        totalRows := 0
        totalPredsDropped := 0 }

/-- C4 (counterexample): constructing the sink with
`queueSize = 4 ≤ maxBufferSize = 4` succeeds — `ParquetSink.__init__`
performs no validation, so the configuration the claim says must be
rejected is silently accepted. -/
theorem parquetInit_accepts_queue_le_buffer_cex :
    parquetInit false 4 4 = .ok ⟨4, false, 4, 0, 0⟩ := by
  rfl

/-- C4 (amended): `ParquetSink.__init__` accepts every configuration,
including `queueSize ≤ maxBufferSize`: it neither raises nor clamps — the
stored configuration is exactly what was passed in. -/
theorem parquetInit_never_rejects
    (dropWhenFull : Bool) (maxBufferSize queueSize : Nat)
    (h : queueSize ≤ maxBufferSize) :
    parquetInit dropWhenFull maxBufferSize queueSize
      = .ok ⟨maxBufferSize, dropWhenFull, queueSize, 0, 0⟩ := by
  rfl

/-- C4 (witness for `parquetInit_never_rejects`). -/
theorem parquetInit_never_rejects_witness :
    parquetInit true 10 3 = .ok ⟨10, true, 3, 0, 0⟩ :=
  parquetInit_never_rejects true 10 3 (by decide)

/-- Model of `ParquetSink._flush`: a non-empty batch is written as one flush; empty
batches are skipped (`if not batch: return`). -/
def flushBatch {α : Type} (batch : List α) : List (List α) :=
  if batch.isEmpty then [] else [batch]

/-- Result of the inner greedy drain of `ParquetSink._worker`: either the
`_END` token was met (flush what is buffered and return from the worker),
or the drain stopped (queue empty or buffer full) with the remaining queue
and the buffer. -/
inductive DrainStep (α : Type) where
  | finished (flushes : List (List α))
  | next (queue : List (StreamItem α)) (buffer : List α)
  deriving DecidableEq, Repr

/-- The greedy drain loop of `ParquetSink._worker`
(`while not queue.empty() and len(buffer) < max_buf`): pop already-queued
items into the buffer; `_END` flushes the buffer and terminates the
worker. -/
def drainLoop {α : Type} (maxBuf : Nat) :
    List (StreamItem α) → List α → DrainStep α
  | [], buffer => .next [] buffer
  | item :: rest, buffer =>
    if maxBuf ≤ buffer.length then .next (item :: rest) buffer
    else
      match item with
      | .endToken => .finished (flushBatch buffer)
      | .sample s => drainLoop maxBuf rest (buffer ++ [s])

/-- The outer `while True` loop of `ParquetSink._worker`, with `fuel`
bounding the number of anchor iterations (each consumes at least one
queued item, so `queue.length` fuel is always enough): wait for the anchor
item (`_END` breaks to the final flush); greedily drain; flush when the
buffer reached `max_buffer_size`.  Returns the list of flushed batches in
order. -/
def workerLoop {α : Type} (maxBuf : Nat) :
    Nat → List (StreamItem α) → List α → List (List α)
  | 0, _, _ => []
  | _ + 1, [], _ => []
  | fuel + 1, item :: rest, buffer =>
    match item with
    | .endToken => flushBatch buffer
    | .sample s =>
      match drainLoop maxBuf rest (buffer ++ [s]) with
      | .finished flushes => flushes
      | .next rest2 buffer2 =>
        if maxBuf ≤ buffer2.length then
          flushBatch buffer2 ++ workerLoop maxBuf fuel rest2 []
        else workerLoop maxBuf fuel rest2 buffer2

/-- The run of `ParquetSink._worker` on a pre-filled queue, starting with an empty
buffer. -/
def parquetWorker {α : Type} (maxBuf : Nat) (queue : List (StreamItem α)) :
    List (List α) :=
  workerLoop maxBuf queue.length queue []

/-- C5 (counterexample): with `maxBufferSize = 4`, nine queued samples
followed by `_END` (the `close()` sentinel; `queueSize = 10` holds all ten
items) are persisted in *three* flushes of sizes 4, 4 and 1 — not two
flushes of 4 and 5: the greedy drain stops at `max_buffer_size`, so no
flush can ever exceed 4 rows. -/
theorem parquetWorker_nine_samples_flush_sizes_cex :
    ((parquetWorker 4 (((List.range 9).map StreamItem.sample)
        ++ [StreamItem.endToken])).map List.length = [4, 4, 1]) ∧
      (parquetWorker 4 (((List.range 9).map StreamItem.sample)
        ++ [StreamItem.endToken])).map List.length ≠ [4, 5] := by
  decide

/-- C5 (amended): for any nine samples all enqueued before the worker
drains, followed by the `_END` sentinel sent by `close()`, the worker
persists exactly those nine samples — no sample lost or duplicated, in
order — across exactly three flushes of sizes 4, 4 and 1. -/
theorem parquetWorker_nine_samples_three_flushes
    {α : Type} (l : List α) (h : l.length = 9) :
    parquetWorker 4 (l.map StreamItem.sample ++ [StreamItem.endToken])
        = [l.take 4, (l.drop 4).take 4, l.drop 8] ∧
      (parquetWorker 4 (l.map StreamItem.sample ++ [StreamItem.endToken])).flatten = l := by
  match l, h with
  | [a, b, c, d, e, f, g, h2, i], _ =>
    refine ⟨rfl, rfl⟩

/-- C5 (witness for `parquetWorker_nine_samples_three_flushes`). -/
theorem parquetWorker_nine_samples_three_flushes_witness :
    (parquetWorker 4 (((List.range 9).reverse.map StreamItem.sample)
        ++ [StreamItem.endToken])
      = [(List.range 9).reverse.take 4, ((List.range 9).reverse.drop 4).take 4,
          (List.range 9).reverse.drop 8]) ∧
      (parquetWorker 4 (((List.range 9).reverse.map StreamItem.sample)
        ++ [StreamItem.endToken])).flatten = (List.range 9).reverse :=
  parquetWorker_nine_samples_three_flushes (List.range 9).reverse (by decide)

/-! ## HTTPSink (`sinks/http.py`)

`HTTPSink._send_with_retry` is a `for attempt in range(self._retry_attempts)`
loop: each attempt POSTs the payload; a 2xx response returns `True`
immediately; a non-2xx response, `aiohttp.ClientError` or
`asyncio.TimeoutError` logs a warning and, when `attempt <
retry_attempts - 1`, sleeps `backoff_factor_s * 2 ** attempt` seconds;
after the loop `logger.error(...)` runs and `False` is returned — the
bundle is dropped.  The body is modelled as the list of effects it
performs; the `HttpEffect` type also has an `incrementDropCounter`
constructor so the claim "the drop is counted" can be stated: the
translation emits one effect per statement of the source, and the source
contains no counter increment. -/

/-- Outcome of a single POST attempt: a 2xx response, a non-2xx response,
an `aiohttp.ClientError`, or an `asyncio.TimeoutError`. -/
inductive SendAttemptResult where
  | success
  | non2xx
  | clientError
  | timedOut
  deriving DecidableEq, Repr

/-- Whether an attempt outcome takes the `200 <= response.status < 300`
early-return branch of `_send_with_retry`. -/
def attemptSucceeds : SendAttemptResult → Bool
  | .success => true
  | _ => false

/-- Observable effects of `HTTPSink._send_with_retry`, one per statement:
`post i` = the POST of attempt `i`; `warn i` = the warning logged for a
failed attempt; `retryInfo i` = the "Retrying in ..." log; `sleep d` =
`await asyncio.sleep(d)`; `logFailure` = the final `logger.error` after
all attempts failed.  `incrementDropCounter` has *no* corresponding
statement in the source — it exists so the claim that a dropped bundle is
counted can be stated and refuted. -/
inductive HttpEffect where
  | post (attempt : Nat)
  | warn (attempt : Nat)
  | retryInfo (attempt : Nat)
  | sleep (seconds : ℚ)
  | logFailure
  | incrementDropCounter
  deriving DecidableEq, Repr

/-- The `for attempt in range(retry_attempts)` loop of `_send_with_retry`,
with `remaining` iterations left and current index `attempt`; returns the
effect trace and the returned boolean. -/
def retryLoop (retryAttempts : Nat) (backoffFactor : ℚ)
    (outcome : Nat → SendAttemptResult) : Nat → Nat → List HttpEffect × Bool
  | _, 0 => ([.logFailure], false)
  | attempt, remaining + 1 =>
    if attemptSucceeds (outcome attempt) then ([.post attempt], true)
    else
      let sleepFx :=
        if attempt < retryAttempts - 1 then
          [HttpEffect.retryInfo attempt, HttpEffect.sleep (backoffFactor * 2 ^ attempt)]
        else []
      let tail := retryLoop retryAttempts backoffFactor outcome (attempt + 1) remaining
      (HttpEffect.post attempt :: HttpEffect.warn attempt :: sleepFx ++ tail.1, tail.2)

/-- Model of `HTTPSink._send_with_retry` for a payload whose attempt `i` has outcome
`outcome i`: the effect trace and the boolean result. -/
def sendWithRetry (retryAttempts : Nat) (backoffFactor : ℚ)
    (outcome : Nat → SendAttemptResult) : List HttpEffect × Bool :=
  retryLoop retryAttempts backoffFactor outcome 0 retryAttempts

/-- Number of POST attempts recorded in an effect trace. -/
def postCount (fx : List HttpEffect) : Nat :=
  fx.countP fun e => match e with | .post _ => true | _ => false

/-- Backoff delays slept in an effect trace, in order. -/
def sleepDelays (fx : List HttpEffect) : List ℚ :=
  fx.filterMap fun e => match e with | .sleep d => some d | _ => none

/-- C6 (counterexample): with `retryAttempts = 3`, `backoffFactor = 0.5`
and every attempt failing with a non-2xx status, `_send_with_retry`
performs no drop-counter increment anywhere in its effect trace: the drop
is logged (`logger.error`) but not counted — `HTTPSink` keeps no dropped-
bundle counter. -/
theorem http_drop_not_counted_cex :
    HttpEffect.incrementDropCounter
      ∉ (sendWithRetry 3 (1/2) (fun _ => SendAttemptResult.non2xx)).1 := by
  decide

/-- C6 (amended): with `retryAttempts = 3` and every attempt failing, the
sink makes exactly 3 POST attempts, sleeping `backoffFactor * 2^attempt`
seconds between consecutive attempts — the two delays are strictly
increasing — after which the bundle is dropped (`False` is returned, no
further attempt appears in the trace) and the failure is logged; no drop
counter is incremented. -/
theorem http_three_failed_attempts_backoff_then_drop
    (f : ℚ) (outcome : Nat → SendAttemptResult)
    (hfail : ∀ i, attemptSucceeds (outcome i) = false) (hf : 0 < f) :
    postCount (sendWithRetry 3 f outcome).1 = 3 ∧
      sleepDelays (sendWithRetry 3 f outcome).1 = [f * 2 ^ 0, f * 2 ^ 1] ∧
      f * 2 ^ 0 < f * 2 ^ 1 ∧
      (sendWithRetry 3 f outcome).2 = false ∧
      HttpEffect.logFailure ∈ (sendWithRetry 3 f outcome).1 ∧
      HttpEffect.incrementDropCounter ∉ (sendWithRetry 3 f outcome).1 := by
  have h0 := hfail 0
  have h1 := hfail 1
  have h2 := hfail 2
  refine ⟨?_, ?_, ?_, ?_, ?_, ?_⟩ <;>
    simp [sendWithRetry, retryLoop, h0, h1, h2, postCount, sleepDelays] <;>
    linarith

/-- C6 (witness for `http_three_failed_attempts_backoff_then_drop`). -/
theorem http_three_failed_attempts_backoff_then_drop_witness :
    postCount (sendWithRetry 3 (1/4) (fun _ => SendAttemptResult.timedOut)).1 = 3 ∧
      sleepDelays (sendWithRetry 3 (1/4) (fun _ => SendAttemptResult.timedOut)).1
        = [(1/4 : ℚ) * 2 ^ 0, (1/4 : ℚ) * 2 ^ 1] ∧
      (1/4 : ℚ) * 2 ^ 0 < (1/4 : ℚ) * 2 ^ 1 ∧
      (sendWithRetry 3 (1/4) (fun _ => SendAttemptResult.timedOut)).2 = false ∧
      HttpEffect.logFailure ∈ (sendWithRetry 3 (1/4) (fun _ => SendAttemptResult.timedOut)).1 ∧
      HttpEffect.incrementDropCounter
        ∉ (sendWithRetry 3 (1/4) (fun _ => SendAttemptResult.timedOut)).1 :=
  http_three_failed_attempts_backoff_then_drop (1/4) (fun _ => SendAttemptResult.timedOut)
    (fun _ => rfl) (by norm_num)

/-! ### HTTPSink run loop and semaphore (`sinks/http.py`, `run` and
`_managed_send_task`)

`run` repeatedly takes a bundle, `await self._semaphore.acquire()` (which
suspends while the semaphore value is zero), and spawns
`_managed_send_task`, whose `try/finally` guarantees exactly one
`self._semaphore.release()` whatever the body does.  Modelled as a small
transition system: the state is the semaphore value and the queue of
in-flight tasks; a `spawn` event is enabled only when the acquire can
complete, a `finish k` event completes the `k`-th in-flight task. -/

/-- How the body of `_managed_send_task` ends: normally, with
`bundle.SerializeToString()` raising, or with `_send_with_retry` raising
(e.g. cancellation). -/
inductive SendOutcome where
  | completed
  | serializeRaised
  | sendRaised
  deriving DecidableEq, Repr

/-- Model of `_managed_send_task` acting on the semaphore value: on every path —
normal completion or an exception from serialization or the send — the
`finally` block runs `self._semaphore.release()` exactly once. -/
def managedSendTask (outcome : SendOutcome) (sem : Nat) : Nat :=
  match outcome with
  | .completed => sem + 1
  | .serializeRaised => sem + 1
  | .sendRaised => sem + 1

/-- State of the `HTTPSink.run` loop: current semaphore value and the
in-flight `_managed_send_task`s in spawn order. -/
structure HttpRunState where
  sem : Nat
  inFlight : List SendOutcome
  deriving DecidableEq, Repr

/-- A scheduler event of the `HTTPSink.run` loop. -/
inductive RunEvent where
  | spawn (outcome : SendOutcome)
  | finish (k : Nat)
  deriving DecidableEq, Repr

/-- One step of the run loop: `spawn o` models the loop body — get a
bundle, `await self._semaphore.acquire()` (enabled only when the value is
positive; otherwise the acquire suspends and the event cannot fire), and
`asyncio.create_task(self._managed_send_task(...))`; `finish k` models the
`k`-th in-flight task completing with its `finally` release. -/
def httpStep (s : HttpRunState) : RunEvent → Option HttpRunState
  | .spawn o =>
    if s.sem = 0 then none
    else some ⟨s.sem - 1, s.inFlight ++ [o]⟩
  | .finish k =>
    (s.inFlight.get? k).map fun o =>
      ⟨managedSendTask o s.sem, s.inFlight.eraseIdx k⟩

/-- Run a sequence of scheduler events from a state; `none` when a
disabled event is attempted. -/
def httpRunFrom (s : HttpRunState) : List RunEvent → Option HttpRunState
  | [] => some s
  | e :: es =>
    match httpStep s e with
    | some s2 => httpRunFrom s2 es
    | none => none

/-- The run of `HTTPSink.run` with semaphore `Semaphore(max_concurrent_sends)` and no
task in flight, driven by a sequence of scheduler events. -/
def httpRun (maxConcurrentSends : Nat) (events : List RunEvent) :
    Option HttpRunState :=
  httpRunFrom ⟨maxConcurrentSends, []⟩ events

theorem httpStep_preserves_sum (s s2 : HttpRunState) (e : RunEvent)
    (h : httpStep s e = some s2) :
    s2.sem + s2.inFlight.length = s.sem + s.inFlight.length := by
  cases e with
  | spawn o =>
    rw [httpStep] at h
    by_cases h0 : s.sem = 0
    · rw [if_pos h0] at h; cases h
    · rw [if_neg h0] at h
      cases h
      simp only [List.length_append, List.length_singleton]
      omega
  | finish k =>
    rw [httpStep] at h
    obtain ⟨o, hget, rfl⟩ := Option.map_eq_some'.mp h
    have hk : k < s.inFlight.length := List.get?_eq_some.mp hget |>.1
    cases o <;>
      simp only [managedSendTask] <;>
      rw [List.length_eraseIdx_of_lt hk] <;>
      omega

theorem httpRunFrom_invariant (C : Nat) (events : List RunEvent)
    (s s2 : HttpRunState) (hs : s.sem + s.inFlight.length = C)
    (h : httpRunFrom s events = some s2) :
    s2.sem + s2.inFlight.length = C := by
  induction events generalizing s with
  | nil => rw [httpRunFrom] at h; cases h; exact hs
  | cons e es ih =>
    rw [httpRunFrom] at h
    cases hstep : httpStep s e with
    | none => rw [hstep] at h; cases h
    | some s3 =>
      rw [hstep] at h
      exact ih s3 (httpStep_preserves_sum s s3 e hstep ▸ hs) h

/-- C10: every semaphore permit acquired before spawning a send task is
released exactly once by the corresponding `_managed_send_task`
(`managedSendTask` adds exactly one to the semaphore whatever the body's
outcome, thanks to `try/finally`); consequently, in every state reachable
by `HTTPSink.run`, `semaphoreValue + inFlightTasks = maxConcurrentSends`,
so the number of concurrently in-flight send tasks never exceeds
`maxConcurrentSends`, and whenever the run loop is blocked on the
semaphore (value zero, for a positive limit) some in-flight task can
complete and unblock it — no deadlock after failed sends. -/
theorem http_semaphore_released_once_and_bounded
    (maxConcurrentSends : Nat) (events : List RunEvent) (s : HttpRunState)
    (h : httpRun maxConcurrentSends events = some s) :
    (∀ (o : SendOutcome) (sem : Nat), managedSendTask o sem = sem + 1) ∧
      s.sem + s.inFlight.length = maxConcurrentSends ∧
      s.inFlight.length ≤ maxConcurrentSends ∧
      (s.sem = 0 → 0 < maxConcurrentSends →
        (httpStep s (RunEvent.finish 0)).isSome = true) := by
  have hinv : s.sem + s.inFlight.length = maxConcurrentSends :=
    httpRunFrom_invariant maxConcurrentSends events ⟨maxConcurrentSends, []⟩ s (by simp) h
  refine ⟨fun o sem => by cases o <;> rfl, hinv, by omega, fun h0 hpos => ?_⟩
  have hlen : 0 < s.inFlight.length := by omega
  rw [httpStep]
  cases hf : s.inFlight with
  | nil => rw [hf] at hlen; cases hlen
  | cons o rest => simp [hf]

/-- C10 (witness for `http_semaphore_released_once_and_bounded`). -/
theorem http_semaphore_released_once_and_bounded_witness :
    (∀ (o : SendOutcome) (sem : Nat), managedSendTask o sem = sem + 1) ∧
      (2 : Nat) + ([] : List SendOutcome).length = 2 ∧
      ([] : List SendOutcome).length ≤ 2 ∧
      ((2 : Nat) = 0 → 0 < 2 →
        (httpStep ⟨2, []⟩ (RunEvent.finish 0)).isSome = true) :=
  http_semaphore_released_once_and_bounded 2
    [RunEvent.spawn .completed, RunEvent.spawn .serializeRaised, RunEvent.finish 0,
      RunEvent.spawn .sendRaised, RunEvent.finish 1, RunEvent.finish 0]
    ⟨2, []⟩ (by decide)

/-! ## ZMQSink (`sinks/zmq.py`) and the `GazeData` model (`models/gaze.py`)

`ZMQSink.send` computes `is_valid = data.mid_x_px is not None and
data.mid_y_px is not None`, packs
`struct.Struct("!qii?").pack(epoch_ms, x, y, is_valid)` with `x`/`y`
replaced by `-1` when invalid, and sends `b"gaze" + payload` as one
message.  Bytes are modelled as naturals `< 256`; signed fields use
two's-complement big-endian encoding, exactly the meaning of the `!qii?`
format string (`struct.error` on out-of-range values is modelled by
`none`).  `unpackQii` models `struct.Struct("!qii?").unpack`, the
subscriber side of the bit-exact wire contract. -/

/-- Model of the `models/gaze.py` class `GazeData`: one flattened 120 Hz gaze frame.  Float
fields are modelled as rationals; optional fields are `Option` (absent,
never zero-filled). -/
structure GazeData where
  epochTimestampMs : ℤ
  midXPx : Option ℤ
  midYPx : Option ℤ
  midX : Option ℚ
  midY : Option ℚ
  deviceTimestampUs : ℤ
  systemTimestampUs : ℤ
  leftX : Option ℚ
  leftY : Option ℚ
  rightX : Option ℚ
  rightY : Option ℚ
  leftPupil : Option ℚ
  rightPupil : Option ℚ
  left3d : Option (ℚ × ℚ × ℚ)
  right3d : Option (ℚ × ℚ × ℚ)
  leftOrigin : Option (ℚ × ℚ × ℚ)
  rightOrigin : Option (ℚ × ℚ × ℚ)
  deriving DecidableEq, Repr

/-- Big-endian byte list (most significant first) of the low `w` bytes of
`n`. -/
def byteListBE : Nat → Nat → List Nat
  | 0, _ => []
  | w + 1, n => byteListBE w (n / 256) ++ [n % 256]

/-- Two's-complement representation of `z` in `bits` bits (the value a
C-style signed field stores). -/
def twosComplement (bits : Nat) (z : ℤ) : Nat :=
  (z % (2 ^ bits : ℤ)).toNat

/-- Model of `struct.Struct("!qii?").pack`: 8-byte big-endian signed `q`, two 4-byte
big-endian signed `i`, one `?` byte (1 for True, 0 for False);
`struct.error` — modelled as `none` — when a value is out of its field's
range. -/
def packQii (ts x y : ℤ) (valid : Bool) : Option (List Nat) :=
  if -2^63 ≤ ts ∧ ts < 2^63 ∧ -2^31 ≤ x ∧ x < 2^31 ∧ -2^31 ≤ y ∧ y < 2^31 then
    some (byteListBE 8 (twosComplement 64 ts) ++ byteListBE 4 (twosComplement 32 x)
      ++ byteListBE 4 (twosComplement 32 y) ++ [if valid then 1 else 0])
  else none

/-- The constant 4-byte topic tag `b"gaze"` (`ZMQSink._TOPIC`), in ASCII. -/
def zmqTopic : List Nat := [103, 97, 122, 101]

/-- Model of `ZMQSink.send`: validity is true exactly when both midpoint pixel
fields are present; an invalid sample is packed with `x = y = -1`; the
message is the topic tag followed by the 17-byte record.  A `struct.error`
(out-of-range field) is caught by the `except` clause and nothing is sent
(`none`). -/
def zmqSendMessage (d : GazeData) : Option (List Nat) :=
  match d.midXPx, d.midYPx with
  | some x, some y => (packQii d.epochTimestampMs x y true).map (zmqTopic ++ ·)
  | _, _ => (packQii d.epochTimestampMs (-1) (-1) false).map (zmqTopic ++ ·)

/-- Big-endian interpretation of a byte list as an unsigned natural. -/
def bytesToNatBE (bs : List Nat) : Nat :=
  bs.foldl (fun acc b => acc * 256 + b) 0

/-- Signed value of an unsigned `bits`-bit two's-complement
representation. -/
def fromTwosComplement (bits : Nat) (n : Nat) : ℤ :=
  if n < 2 ^ (bits - 1) then (n : ℤ) else (n : ℤ) - 2 ^ bits

/-- Model of `struct.Struct("!qii?").unpack` on a 17-byte record: the subscriber
side of the broadcast wire format. -/
def unpackQii (payload : List Nat) : Option (ℤ × ℤ × ℤ × Bool) :=
  if payload.length = 17 then
    some (fromTwosComplement 64 (bytesToNatBE (payload.take 8)),
      fromTwosComplement 32 (bytesToNatBE ((payload.drop 8).take 4)),
      fromTwosComplement 32 (bytesToNatBE ((payload.drop 12).take 4)),
      ((payload.drop 16).getD 0 0) != 0)
  else none

theorem length_byteListBE (w n : Nat) : (byteListBE w n).length = w := by
  induction w generalizing n with
  | zero => rfl
  | succ w ih => simp [byteListBE, ih]

theorem bytesToNatBE_byteListBE (w n : Nat) (h : n < 256 ^ w) :
    bytesToNatBE (byteListBE w n) = n := by
  induction w generalizing n with
  | zero =>
    interval_cases n
    rfl
  | succ w ih =>
    have hdiv : n / 256 < 256 ^ w := by
      rw [Nat.div_lt_iff_lt_mul (by norm_num)]
      calc n < 256 ^ (w + 1) := h
        _ = 256 ^ w * 256 := by ring
    have hrec := ih (n / 256) hdiv
    simp only [byteListBE, bytesToNatBE, List.foldl_append] at hrec ⊢
    rw [hrec]
    simp only [List.foldl_cons, List.foldl_nil]
    omega

theorem twosComplement_lt (bits : Nat) (z : ℤ) :
    twosComplement bits z < 2 ^ bits := by
  rw [twosComplement]
  have hm : (0 : ℤ) < 2 ^ bits := by positivity
  have hlt := Int.emod_lt_of_pos z hm
  have hge := Int.emod_nonneg z (ne_of_gt hm)
  have hcast : (((2 : ℕ) ^ bits : ℕ) : ℤ) = (2 : ℤ) ^ bits := by push_cast; ring
  omega

theorem fromTwosComplement_twosComplement (bits : Nat) (z : ℤ) (hb : 1 ≤ bits)
    (h1 : -2 ^ (bits - 1) ≤ z) (h2 : z < 2 ^ (bits - 1)) :
    fromTwosComplement bits (twosComplement bits z) = z := by
  have hsplit : (2 : ℤ) ^ bits = 2 ^ (bits - 1) * 2 := by
    rw [← pow_succ]
    congr 1
    omega
  have hm : (0 : ℤ) < 2 ^ bits := by positivity
  rw [twosComplement, fromTwosComplement]
  rcases le_or_lt 0 z with hz | hz
  · have hlt : z < 2 ^ bits := by nlinarith [pow_pos (show (0:ℤ) < 2 by norm_num) (bits - 1)]
    rw [Int.emod_eq_of_lt hz hlt]
    have htn : ((z.toNat : ℤ)) = z := Int.toNat_of_nonneg hz
    have hcond : z.toNat < 2 ^ (bits - 1) := by
      have : ((z.toNat : ℤ)) < ((2 ^ (bits - 1) : ℕ) : ℤ) := by
        rw [htn]; push_cast; exact h2
      exact_mod_cast this
    rw [if_pos hcond, htn]
  · have hmod : z % 2 ^ bits = z + 2 ^ bits := by
      have hlow : 0 ≤ z + 2 ^ bits := by nlinarith
      have hhigh : z + 2 ^ bits < 2 ^ bits := by omega
      have hself : (z + 2 ^ bits * 1) % 2 ^ bits = z % 2 ^ bits :=
        Int.add_mul_emod_self_left z (2 ^ bits) 1
      rw [mul_one] at hself
      rw [← hself]
      exact Int.emod_eq_of_lt hlow hhigh
    rw [hmod]
    have hlow : (0 : ℤ) ≤ z + 2 ^ bits := by nlinarith
    have htn : (((z + 2 ^ bits).toNat : ℤ)) = z + 2 ^ bits := Int.toNat_of_nonneg hlow
    have hcond : ¬ (z + 2 ^ bits).toNat < 2 ^ (bits - 1) := by
      rw [not_lt]
      have : ((2 ^ (bits - 1) : ℕ) : ℤ) ≤ ((z + 2 ^ bits).toNat : ℤ) := by
        rw [htn]; push_cast; nlinarith
      exact_mod_cast this
    rw [if_neg hcond]
    rw [htn]
    ring

theorem packQii_length (ts x y : ℤ) (valid : Bool) (L : List Nat)
    (h : packQii ts x y valid = some L) : L.length = 17 := by
  rw [packQii] at h
  split at h
  · cases h
    simp [length_byteListBE]
  · cases h

theorem unpackQii_packQii (ts x y : ℤ) (valid : Bool) (L : List Nat)
    (h : packQii ts x y valid = some L) :
    unpackQii L = some (ts, x, y, valid) := by
  rw [packQii] at h
  split at h
  case isFalse => cases h
  case isTrue hr =>
    obtain ⟨hts1, hts2, hx1, hx2, hy1, hy2⟩ := hr
    cases h
    have hA := length_byteListBE 8 (twosComplement 64 ts)
    have hB := length_byteListBE 4 (twosComplement 32 x)
    have hC := length_byteListBE 4 (twosComplement 32 y)
    have htake8 : (byteListBE 8 (twosComplement 64 ts) ++ (byteListBE 4 (twosComplement 32 x)
        ++ (byteListBE 4 (twosComplement 32 y) ++ [if valid then 1 else 0]))).take 8
        = byteListBE 8 (twosComplement 64 ts) := List.take_left' hA
    have hdrop8 : (byteListBE 8 (twosComplement 64 ts) ++ (byteListBE 4 (twosComplement 32 x)
        ++ (byteListBE 4 (twosComplement 32 y) ++ [if valid then 1 else 0]))).drop 8
        = byteListBE 4 (twosComplement 32 x)
          ++ (byteListBE 4 (twosComplement 32 y) ++ [if valid then 1 else 0]) :=
      List.drop_left' hA
    have htake4 : (byteListBE 4 (twosComplement 32 x)
        ++ (byteListBE 4 (twosComplement 32 y) ++ [if valid then 1 else 0])).take 4
        = byteListBE 4 (twosComplement 32 x) := List.take_left' hB
    have hdrop4 : (byteListBE 4 (twosComplement 32 x)
        ++ (byteListBE 4 (twosComplement 32 y) ++ [if valid then 1 else 0])).drop 4
        = byteListBE 4 (twosComplement 32 y) ++ [if valid then 1 else 0] :=
      List.drop_left' hB
    have h12 : (byteListBE 8 (twosComplement 64 ts) ++ (byteListBE 4 (twosComplement 32 x)
        ++ (byteListBE 4 (twosComplement 32 y) ++ [if valid then 1 else 0]))).drop 12
        = byteListBE 4 (twosComplement 32 y) ++ [if valid then 1 else 0] := by
      rw [show (12 : ℕ) = 8 + 4 from rfl, ← List.drop_drop, hdrop8, hdrop4]
    have htakeC : (byteListBE 4 (twosComplement 32 y) ++ [if valid then 1 else 0]).take 4
        = byteListBE 4 (twosComplement 32 y) := List.take_left' hC
    have hdropC : (byteListBE 4 (twosComplement 32 y) ++ [if valid then 1 else 0]).drop 4
        = [if valid then 1 else 0] := List.drop_left' hC
    have h16 : (byteListBE 8 (twosComplement 64 ts) ++ (byteListBE 4 (twosComplement 32 x)
        ++ (byteListBE 4 (twosComplement 32 y) ++ [if valid then 1 else 0]))).drop 16
        = [if valid then 1 else 0] := by
      rw [show (16 : ℕ) = 12 + 4 from rfl, ← List.drop_drop, h12, hdropC]
    have hlt64 : twosComplement 64 ts < 256 ^ 8 := by
      have := twosComplement_lt 64 ts
      norm_num at this ⊢
      omega
    have hltx : twosComplement 32 x < 256 ^ 4 := by
      have := twosComplement_lt 32 x
      norm_num at this ⊢
      omega
    have hlty : twosComplement 32 y < 256 ^ 4 := by
      have := twosComplement_lt 32 y
      norm_num at this ⊢
      omega
    rw [unpackQii, if_pos (by simp [hA, hB, hC])]
    simp only [List.append_assoc]
    rw [htake8, hdrop8, htake4, h12, htakeC, h16]
    rw [bytesToNatBE_byteListBE 8 _ hlt64, bytesToNatBE_byteListBE 4 _ hltx,
      bytesToNatBE_byteListBE 4 _ hlty]
    rw [fromTwosComplement_twosComplement 64 ts (by norm_num) (by simpa using hts1)
        (by simpa using hts2),
      fromTwosComplement_twosComplement 32 x (by norm_num) (by simpa using hx1)
        (by simpa using hx2),
      fromTwosComplement_twosComplement 32 y (by norm_num) (by simpa using hy1)
        (by simpa using hy2)]
    cases valid <;> rfl

/-- C8: `ZMQSink.send` produces, for every sample with in-range fields, a
message of the constant 4-byte `gaze` topic tag followed by a fixed
17-byte big-endian record (int64 epoch-ms, int32 midpoint pixel x, int32
midpoint pixel y, 1-byte validity flag); the validity flag is true iff
both midpoint pixel fields are present; a sample with no valid midpoint is
packed with `x = -1, y = -1, validity = false`; and for every valid
sample, unpacking the packed record recovers the exact pixel coordinates
(pack/unpack round-trip). -/
theorem zmq_pack_layout_validity_roundtrip (d : GazeData)
    (hts1 : -2 ^ 63 ≤ d.epochTimestampMs) (hts2 : d.epochTimestampMs < 2 ^ 63)
    (hx : ∀ x, d.midXPx = some x → -2 ^ 31 ≤ x ∧ x < 2 ^ 31)
    (hy : ∀ y, d.midYPx = some y → -2 ^ 31 ≤ y ∧ y < 2 ^ 31) :
    ∃ msg, zmqSendMessage d = some msg ∧
      msg.length = 21 ∧
      msg.take 4 = zmqTopic ∧
      (msg.drop 4).length = 17 ∧
      ((d.midXPx.isSome && d.midYPx.isSome) = false →
        unpackQii (msg.drop 4) = some (d.epochTimestampMs, -1, -1, false)) ∧
      (∀ x y, d.midXPx = some x → d.midYPx = some y →
        unpackQii (msg.drop 4) = some (d.epochTimestampMs, x, y, true)) := by
  obtain ⟨ts, mx, my, m3, m4, m5, m6, m7, m8, m9, m10, m11, m12, m13, m14, m15, m16⟩ := d
  dsimp only at hts1 hts2 hx hy ⊢
  rcases mx with _ | x <;> rcases my with _ | y
  case none.none =>
    obtain ⟨pay, hpack⟩ : ∃ p, packQii ts (-1) (-1) false = some p :=
      ⟨_, by rw [packQii,
        if_pos ⟨hts1, hts2, by norm_num, by norm_num, by norm_num, by norm_num⟩]⟩
    refine ⟨zmqTopic ++ pay, ?_, ?_, List.take_left' rfl, ?_, ?_, ?_⟩
    · simp only [zmqSendMessage]
      rw [hpack]
      rfl
    · have := packQii_length ts (-1) (-1) false pay hpack
      simp [zmqTopic, this]
    · rw [show (zmqTopic ++ pay).drop 4 = pay from List.drop_left' rfl]
      exact packQii_length ts (-1) (-1) false pay hpack
    · intro hff
      rw [show (zmqTopic ++ pay).drop 4 = pay from List.drop_left' rfl]
      exact unpackQii_packQii ts (-1) (-1) false pay hpack
    · intro x' y' hxx hyy
      cases hxx
  case none.some =>
    obtain ⟨pay, hpack⟩ : ∃ p, packQii ts (-1) (-1) false = some p :=
      ⟨_, by rw [packQii,
        if_pos ⟨hts1, hts2, by norm_num, by norm_num, by norm_num, by norm_num⟩]⟩
    refine ⟨zmqTopic ++ pay, ?_, ?_, List.take_left' rfl, ?_, ?_, ?_⟩
    · simp only [zmqSendMessage]
      rw [hpack]
      rfl
    · have := packQii_length ts (-1) (-1) false pay hpack
      simp [zmqTopic, this]
    · rw [show (zmqTopic ++ pay).drop 4 = pay from List.drop_left' rfl]
      exact packQii_length ts (-1) (-1) false pay hpack
    · intro hff
      rw [show (zmqTopic ++ pay).drop 4 = pay from List.drop_left' rfl]
      exact unpackQii_packQii ts (-1) (-1) false pay hpack
    · intro x' y' hxx hyy
      cases hxx
  case some.none =>
    obtain ⟨pay, hpack⟩ : ∃ p, packQii ts (-1) (-1) false = some p :=
      ⟨_, by rw [packQii,
        if_pos ⟨hts1, hts2, by norm_num, by norm_num, by norm_num, by norm_num⟩]⟩
    refine ⟨zmqTopic ++ pay, ?_, ?_, List.take_left' rfl, ?_, ?_, ?_⟩
    · simp only [zmqSendMessage]
      rw [hpack]
      rfl
    · have := packQii_length ts (-1) (-1) false pay hpack
      simp [zmqTopic, this]
    · rw [show (zmqTopic ++ pay).drop 4 = pay from List.drop_left' rfl]
      exact packQii_length ts (-1) (-1) false pay hpack
    · intro hff
      rw [show (zmqTopic ++ pay).drop 4 = pay from List.drop_left' rfl]
      exact unpackQii_packQii ts (-1) (-1) false pay hpack
    · intro x' y' hxx hyy
      cases hyy
  case some.some =>
    obtain ⟨bx1, bx2⟩ := hx x rfl
    obtain ⟨by1, by2⟩ := hy y rfl
    obtain ⟨pay, hpack⟩ : ∃ p, packQii ts x y true = some p :=
      ⟨_, by rw [packQii, if_pos ⟨hts1, hts2, bx1, bx2, by1, by2⟩]⟩
    refine ⟨zmqTopic ++ pay, ?_, ?_, List.take_left' rfl, ?_, ?_, ?_⟩
    · simp only [zmqSendMessage]
      rw [hpack]
      rfl
    · have := packQii_length ts x y true pay hpack
      simp [zmqTopic, this]
    · rw [show (zmqTopic ++ pay).drop 4 = pay from List.drop_left' rfl]
      exact packQii_length ts x y true pay hpack
    · intro hff
      simp at hff
    · intro x' y' hxx hyy
      injection hxx with hxx
      injection hyy with hyy
      subst hxx
      subst hyy
      rw [show (zmqTopic ++ pay).drop 4 = pay from List.drop_left' rfl]
      exact unpackQii_packQii ts x y true pay hpack

/-- C8 (witness for `zmq_pack_layout_validity_roundtrip`). -/
theorem zmq_pack_layout_validity_roundtrip_witness :
    ∃ msg,
      zmqSendMessage ⟨1700000000000, some 960, some 540, some (1/2), some (1/2),
          123456, 654321, none, none, none, none, none, none, none, none, none, none⟩
        = some msg ∧
      msg.length = 21 ∧
      msg.take 4 = zmqTopic ∧
      (msg.drop 4).length = 17 ∧
      (((some (960 : ℤ)).isSome && (some (540 : ℤ)).isSome) = false →
        unpackQii (msg.drop 4) = some (1700000000000, -1, -1, false)) ∧
      (∀ x y, some (960 : ℤ) = some x → some (540 : ℤ) = some y →
        unpackQii (msg.drop 4) = some (1700000000000, x, y, true)) :=
  zmq_pack_layout_validity_roundtrip
    ⟨1700000000000, some 960, some 540, some (1/2), some (1/2),
      123456, 654321, none, none, none, none, none, none, none, none, none, none⟩
    (by norm_num) (by norm_num)
    (by intro x hxx
        injection hxx with hxx
        subst hxx
        norm_num)
    (by intro y hyy
        injection hyy with hyy
        subst hyy
        norm_num)

end GazeCapture
